import Mathlib

/-!
# Verification of the bundb emoji repository (internal/db/bundb/emoji.go)

A shallow embedding of the emoji database layer of gotosocial's bundb
package.  SQL tables are modelled as Lean lists of rows, the result caches
as lists of entries keyed by primary id, `*gtsmodel.Emoji` pointers that
may be nil as `Option Emoji`, and fallible database calls as `Except`
values.  Failures of SQL statements themselves (connection loss and the
like) are injected as explicit `Option DBErr` parameters, since they do not
depend on the data.  `time.Now()` is passed in as an explicit `now`
parameter.  Go strings are Lean strings; SQL `LOWER` is character-wise
lowercasing and SQL string comparison is the character-wise order on
`String`.
-/

namespace Bundb

/-- `db.Error` values surfaced by the repository.  `noEntries` models
`db.ErrNoEntries`; `other` models any further processed database error.
`conn.ProcessError` maps raw driver errors onto this type, so in the model
errors are already of this type and `ProcessError` is the identity. -/
inductive DBErr
  | noEntries
  | alreadyExists
  | other (msg : String)
deriving DecidableEq, Repr

/-- A row of the `emojis` table / a `gtsmodel.Emoji`.  `domain = none`
models SQL NULL (a local emoji).  `updatedAt` is a timestamp modelled as a
natural number. -/
structure Emoji where
  id : String
  shortcode : String
  domain : Option String
  disabled : Bool
  visibleInPicker : Bool
  uri : String
  imageStaticURL : String
  categoryID : Option String
  updatedAt : Nat
deriving DecidableEq, Repr

/-- A row of the `emoji_categories` table / a `gtsmodel.EmojiCategory`. -/
structure EmojiCategory where
  id : String
  name : String
deriving DecidableEq, Repr

/-- A row of the `status_to_emojis` junction table. -/
structure StatusToEmoji where
  statusID : String
  emojiID : String
deriving DecidableEq, Repr

/-- A row of the `account_to_emojis` junction table. -/
structure AccountToEmoji where
  accountID : String
  emojiID : String
deriving DecidableEq, Repr

/-- `cache.EmojiCache` state: a result cache whose entries are keyed by the
emoji's primary id (the alternate lookup keys of an entry are derived from
the stored entry itself). -/
def EmojiCacheState := List Emoji

/-- `cache.EmojiCategoryCache` state. -/
def CategoryCacheState := List EmojiCategory

/-- `emojiCache.GetByID`. -/
def cacheGetByID (cache : List Emoji) (id : String) : Option Emoji :=
  cache.find? fun e => e.id == id

/-- `emojiCache.Put`: store the entry under its primary id, replacing any
previous entry with the same id. -/
def cachePut (cache : List Emoji) (emoji : Emoji) : List Emoji :=
  emoji :: cache.filter fun e => e.id != emoji.id

/-- `emojiCache.Invalidate`: drop the entry with the given id. -/
def cacheInvalidate (cache : List Emoji) (id : String) : List Emoji :=
  cache.filter fun e => e.id != id

/-- `categoryCache.GetByID`. -/
def catCacheGetByID (cache : List EmojiCategory) (id : String) : Option EmojiCategory :=
  cache.find? fun c => c.id == id

/-- `categoryCache.Put`. -/
def catCachePut (cache : List EmojiCategory) (cat : EmojiCategory) : List EmojiCategory :=
  cat :: cache.filter fun c => c.id != cat.id

/-- Outcome of a single-entity emoji read: the returned value (`.error`
models the Go `nil, err` return), the cache state afterwards, and whether
the storage query was executed. -/
structure EmojiFetch where
  result : Except DBErr Emoji
  cache : List Emoji
  storageAccessed : Bool
deriving Repr

/-- Outcome of a single-entity emoji-category read. -/
structure CategoryFetch where
  result : Except DBErr EmojiCategory
  cache : List EmojiCategory
  storageAccessed : Bool
deriving Repr

/-- `emojiDB.getEmoji`: the cache-aside read helper.  `cacheGet` is the
closure doing the cache lookup; `dbQuery` is the closure running the
storage query (already carrying its success value or processed error). -/
def getEmoji (cache : List Emoji) (cacheGet : List Emoji → Option Emoji)
    (dbQuery : Except DBErr Emoji) : EmojiFetch :=
  match cacheGet cache with
  | some emoji => ⟨.ok emoji, cache, false⟩
  | none =>
      match dbQuery with
      | .error err => ⟨.error err, cache, true⟩
      | .ok emoji => ⟨.ok emoji, cachePut cache emoji, true⟩

/-- `emojiDB.getEmojiCategory`: cache-aside read helper for categories. -/
def getEmojiCategory (cache : List EmojiCategory)
    (cacheGet : List EmojiCategory → Option EmojiCategory)
    (dbQuery : Except DBErr EmojiCategory) : CategoryFetch :=
  match cacheGet cache with
  | some cat => ⟨.ok cat, cache, false⟩
  | none =>
      match dbQuery with
      | .error err => ⟨.error err, cache, true⟩
      | .ok cat => ⟨.ok cat, catCachePut cache cat, true⟩

/-- `emojiDB.GetEmojiByID`.  `storage` is the per-id storage query (the
`newEmojiQ ... Where emoji.id = id ... Scan` closure). -/
def GetEmojiByID (storage : String → Except DBErr Emoji) (cache : List Emoji)
    (id : String) : EmojiFetch :=
  getEmoji cache (fun c => cacheGetByID c id) (storage id)

/-- `emojiDB.GetEmojiCategory`. -/
def GetEmojiCategory (storage : String → Except DBErr EmojiCategory)
    (cache : List EmojiCategory) (id : String) : CategoryFetch :=
  getEmojiCategory cache (fun c => catCacheGetByID c id) (storage id)

/-- Outcome of a batch hydration: the returned slice of (nilable) emoji
pointers, or an error, plus the cache state afterwards. -/
structure EmojiBatch where
  result : Except DBErr (List (Option Emoji))
  cache : List Emoji
deriving Repr

/-- Outcome of a batch category hydration. -/
structure CategoryBatch where
  result : Except DBErr (List (Option EmojiCategory))
  cache : List EmojiCategory
deriving Repr

/-- `emojiDB.emojisFromIDs`.  An empty id list yields `db.ErrNoEntries`.
Otherwise, for each id in order, `GetEmojiByID` is called; on error the
failure is only logged (`log.Errorf`) and the loop continues, but the
returned pointer — which is nil exactly when the call errored — is appended
to the output unconditionally, so a failed id contributes a `none` entry. -/
def emojisFromIDs (storage : String → Except DBErr Emoji) (cache : List Emoji)
    (emojiIDs : List String) : EmojiBatch :=
  if emojiIDs.length = 0 then ⟨.error .noEntries, cache⟩
  else
    let step : List (Option Emoji) × List Emoji → String → List (Option Emoji) × List Emoji :=
      fun acc id =>
        let fetched := GetEmojiByID storage acc.2 id
        match fetched.result with
        | .ok emoji => (acc.1 ++ [some emoji], fetched.cache)
        | .error _ => (acc.1 ++ [none], fetched.cache)
    let out := emojiIDs.foldl step ([], cache)
    ⟨.ok out.1, out.2⟩

/-- `emojiDB.emojiCategoriesFromIDs`: same shape as `emojisFromIDs`. -/
def emojiCategoriesFromIDs (storage : String → Except DBErr EmojiCategory)
    (cache : List EmojiCategory) (catIDs : List String) : CategoryBatch :=
  if catIDs.length = 0 then ⟨.error .noEntries, cache⟩
  else
    let step : List (Option EmojiCategory) × List EmojiCategory → String →
        List (Option EmojiCategory) × List EmojiCategory :=
      fun acc id =>
        let fetched := GetEmojiCategory storage acc.2 id
        match fetched.result with
        | .ok cat => (acc.1 ++ [some cat], fetched.cache)
        | .error _ => (acc.1 ++ [none], fetched.cache)
    let out := catIDs.foldl step ([], cache)
    ⟨.ok out.1, out.2⟩

/-- SQL `LOWER` / Go `strings.ToLower`, modelled as character-wise
lowercasing (written over the character list so that it evaluates inside
the kernel; it agrees with `String.toLower`). -/
def strToLower (s : String) : String := String.mk (s.data.map Char.toLower)

/-- Strict character-wise (code-point) comparison of two character lists:
the SQL string order (sqlite BINARY / memcmp agrees with it on the ASCII
strings at hand).  Written with `Char.toNat` so that it evaluates inside
the kernel. -/
def charListLt : List Char → List Char → Bool
  | [], [] => false
  | [], _ :: _ => true
  | _ :: _, [] => false
  | a :: as, b :: bs =>
      if a.toNat < b.toNat then true
      else if a.toNat = b.toNat then charListLt as bs
      else false

/-- Non-strict character-wise comparison of two character lists. -/
def charListLe : List Char → List Char → Bool
  | [], _ => true
  | _ :: _, [] => false
  | a :: as, b :: bs =>
      if a.toNat < b.toNat then true
      else if a.toNat = b.toNat then charListLe as bs
      else false

/-- SQL `<` on strings. -/
def strLt (a b : String) : Bool := charListLt a.data b.data

/-- SQL `<=` on strings. -/
def strLe (a b : String) : Bool := charListLe a.data b.data

/-- `db.EmojiAllDomains`, the reserved sentinel that disables the domain
filter.  Modelled from the spec: the constant lives in the `internal/db`
package, outside the sources at hand; the spec calls it "a reserved
sentinel = no domain filter at all".  Its concrete value is irrelevant to
`GetEmojis`, which only compares the `domain` argument against it. -/
def EmojiAllDomains : String := "all"

/-- The derived sort key of the `GetEmojis` subquery:
`LOWER(shortcode || chr64 || COALESCE(domain, ''))` with `chr64` the at
sign, identical for the sqlite and postgres dialect branches. -/
def sortKey (e : Emoji) : String :=
  strToLower (e.shortcode ++ "@" ++ e.domain.getD "")

/-- The domain `Where` clause of `GetEmojis`: empty string keeps only NULL
domains; the all-domains sentinel adds no clause; anything else is an exact
(SQL `=`, hence case-sensitive, NULL never matching) comparison. -/
def domainWhere (domain : String) (e : Emoji) : Bool :=
  if domain = "" then e.domain.isNone
  else if domain = EmojiAllDomains then true
  else e.domain == some domain

/-- The disabled/enabled `Where` clause of `GetEmojis`. -/
def disabledWhere (includeDisabled includeEnabled : Bool) (e : Emoji) : Bool :=
  if includeDisabled && !includeEnabled then e.disabled == true
  else if includeEnabled && !includeDisabled then e.disabled == false
  else true

/-- The shortcode `Where` clause of `GetEmojis`:
`LOWER(shortcode) = LOWER(?)`, added only for a non-empty argument. -/
def shortcodeWhere (shortcode : String) (e : Emoji) : Bool :=
  if shortcode = "" then true
  else strToLower e.shortcode == strToLower shortcode

/-- The forward-cursor clause of `GetEmojis`:
`shortcode_domain > LOWER(maxShortcodeDomain)`, added only when the cursor
is non-empty. -/
def maxWhere (maxShortcodeDomain : String) (e : Emoji) : Bool :=
  if maxShortcodeDomain = "" then true
  else strLt (strToLower maxShortcodeDomain) (sortKey e)

/-- The backward-cursor clause of `GetEmojis`:
`shortcode_domain < LOWER(minShortcodeDomain)`, added only when the cursor
is non-empty. -/
def minWhere (minShortcodeDomain : String) (e : Emoji) : Bool :=
  if minShortcodeDomain = "" then true
  else strLt (sortKey e) (strToLower minShortcodeDomain)

/-- Conjunction of all the `Where` clauses the `GetEmojis` subquery adds. -/
def emojiSelectFilter (domain : String) (includeDisabled includeEnabled : Bool)
    (shortcode maxShortcodeDomain minShortcodeDomain : String) (e : Emoji) : Bool :=
  domainWhere domain e && disabledWhere includeDisabled includeEnabled e &&
    shortcodeWhere shortcode e && maxWhere maxShortcodeDomain e &&
    minWhere minShortcodeDomain e

/-- `ORDER BY shortcode_domain ASC` as a relation on rows. -/
def emojiAsc (a b : Emoji) : Prop := strLe (sortKey a) (sortKey b) = true

/-- `ORDER BY shortcode_domain DESC` as a relation on rows. -/
def emojiDesc (a b : Emoji) : Prop := strLe (sortKey b) (sortKey a) = true

instance : DecidableRel emojiAsc := fun _a _b => inferInstanceAs (Decidable (_ = true))

instance : DecidableRel emojiDesc := fun _a _b => inferInstanceAs (Decidable (_ = true))

/-- `Limit(limit)`, applied only when `limit > 0` (Go `int`). -/
def applyLimit (limit : Int) (l : List Emoji) : List Emoji :=
  if limit > 0 then l.take limit.toNat else l

/-- The row sequence produced by `GetEmojis` before ids are extracted and
hydrated: filter by all `Where` clauses; sort by the derived key, descending
exactly when a backward cursor (`minShortcodeDomain`) is present; apply the
limit to the sorted sequence; and in the descending case reverse the fetched
sequence in memory (the Go code reverses the scanned id slice, which equals
mapping ids after reversing the rows). -/
def getEmojisRows (table : List Emoji) (domain : String)
    (includeDisabled includeEnabled : Bool)
    (shortcode maxShortcodeDomain minShortcodeDomain : String)
    (limit : Int) : List Emoji :=
  let rows := table.filter (emojiSelectFilter domain includeDisabled includeEnabled
    shortcode maxShortcodeDomain minShortcodeDomain)
  if minShortcodeDomain ≠ "" then
    (applyLimit limit (List.insertionSort emojiDesc rows)).reverse
  else
    applyLimit limit (List.insertionSort emojiAsc rows)

/-- The id sequence `GetEmojis` passes to `emojisFromIDs`. -/
def getEmojisIDs (table : List Emoji) (domain : String)
    (includeDisabled includeEnabled : Bool)
    (shortcode maxShortcodeDomain minShortcodeDomain : String)
    (limit : Int) : List String :=
  (getEmojisRows table domain includeDisabled includeEnabled shortcode
    maxShortcodeDomain minShortcodeDomain limit).map fun e => e.id

/-- The value of one column of an `emojis` row, used to state which columns
an `UPDATE` touches. -/
inductive FieldVal
  | str (v : String)
  | optStr (v : Option String)
  | boolean (v : Bool)
  | nat (v : Nat)
deriving DecidableEq, Repr

/-- Read one named column of a row (`none` for an unknown column name). -/
def fieldOf (e : Emoji) (col : String) : Option FieldVal :=
  if col = "id" then some (.str e.id)
  else if col = "shortcode" then some (.str e.shortcode)
  else if col = "domain" then some (.optStr e.domain)
  else if col = "disabled" then some (.boolean e.disabled)
  else if col = "visible_in_picker" then some (.boolean e.visibleInPicker)
  else if col = "uri" then some (.str e.uri)
  else if col = "image_static_url" then some (.str e.imageStaticURL)
  else if col = "category_id" then some (.optStr e.categoryID)
  else if col = "updated_at" then some (.nat e.updatedAt)
  else none

/-- Overwrite one named column of a stored row with the incoming model's
value, as bun's `Column(...)` restriction does; an unknown column name
changes nothing. -/
def applyColumn (stored incoming : Emoji) (col : String) : Emoji :=
  if col = "id" then { stored with id := incoming.id }
  else if col = "shortcode" then { stored with shortcode := incoming.shortcode }
  else if col = "domain" then { stored with domain := incoming.domain }
  else if col = "disabled" then { stored with disabled := incoming.disabled }
  else if col = "visible_in_picker" then { stored with visibleInPicker := incoming.visibleInPicker }
  else if col = "uri" then { stored with uri := incoming.uri }
  else if col = "image_static_url" then { stored with imageStaticURL := incoming.imageStaticURL }
  else if col = "category_id" then { stored with categoryID := incoming.categoryID }
  else if col = "updated_at" then { stored with updatedAt := incoming.updatedAt }
  else stored

/-- `emojiDB.UpdateEmoji`.  Sets the in-memory emoji's `UpdatedAt` to `now`,
executes `UPDATE ... SET <columns> WHERE emoji.id = ?` (whose possible
failure is injected as `execErr`), and on success invalidates the cache
entry for the id and returns the mutated emoji.  Returns
`(result, table afterwards, cache afterwards)`. -/
def UpdateEmoji (table cache : List Emoji) (emoji : Emoji) (columns : List String)
    (now : Nat) (execErr : Option DBErr) :
    Except DBErr Emoji × List Emoji × List Emoji :=
  let emoji := { emoji with updatedAt := now }
  match execErr with
  | some err => (.error err, table, cache)
  | none =>
      let table := table.map fun row =>
        if row.id = emoji.id then columns.foldl (fun acc col => applyColumn acc emoji col) row
        else row
      (.ok emoji, table, cacheInvalidate cache emoji.id)

/-- The three tables touched by `DeleteEmojiByID`. -/
structure EmojiDBState where
  statusToEmojis : List StatusToEmoji
  accountToEmojis : List AccountToEmoji
  emojis : List Emoji
deriving DecidableEq, Repr

/-- One of the three DELETE statements of `DeleteEmojiByID`, in the order
the transaction body issues them. -/
inductive DeleteStep
  | statusJunction
  | accountJunction
  | emojiRow
deriving DecidableEq, Repr

/-- The body of the `RunInTx` closure of `DeleteEmojiByID`: delete the
status-junction rows for the id, then the account-junction rows, then the
emoji row, stopping at the first failing statement (failures injected as
`e1`, `e2`, `e3`).  Also returns the trace of statements that completed, in
execution order. -/
def deleteEmojiSteps (st : EmojiDBState) (id : String) (e1 e2 e3 : Option DBErr) :
    Except DBErr EmojiDBState × List DeleteStep :=
  match e1 with
  | some err => (.error err, [])
  | none =>
      let st1 := { st with statusToEmojis := st.statusToEmojis.filter fun r => r.emojiID != id }
      match e2 with
      | some err => (.error err, [.statusJunction])
      | none =>
          let st2 := { st1 with accountToEmojis := st1.accountToEmojis.filter fun r => r.emojiID != id }
          match e3 with
          | some err => (.error err, [.statusJunction, .accountJunction])
          | none =>
              let st3 := { st2 with emojis := st2.emojis.filter fun r => r.id != id }
              (.ok st3, [.statusJunction, .accountJunction, .emojiRow])

/-- `emojiDB.DeleteEmojiByID`.  `RunInTx` commits the state produced by the
closure when it returns nil and rolls every change back when it errors; the
cache entry is invalidated only after a successful commit.  Returns
`(result, db state afterwards, cache afterwards, executed-statement trace)`. -/
def DeleteEmojiByID (st : EmojiDBState) (cache : List Emoji) (id : String)
    (e1 e2 e3 : Option DBErr) :
    Except DBErr Unit × EmojiDBState × List Emoji × List DeleteStep :=
  match deleteEmojiSteps st id e1 e2 e3 with
  | (.error err, trace) => (.error err, st, cache, trace)
  | (.ok st2, trace) => (.ok (), st2, cacheInvalidate cache id, trace)

/-- The storage query closure of `GetEmojiByShortcodeDomain` as a predicate
on rows: with a non-empty domain, shortcode and domain are matched by plain
SQL `=` (case-sensitive, no lowercasing); with an empty domain, the
shortcode column is matched against `strings.ToLower(shortcode)` and the
domain column must be NULL. -/
def shortcodeDomainQuery (shortcode domain : String) (e : Emoji) : Bool :=
  if domain ≠ "" then e.shortcode == shortcode && e.domain == some domain
  else e.shortcode == strToLower shortcode && e.domain.isNone

/-- `emojiDB.GetEmojiByShortcodeDomain`: cache-aside read whose storage
query scans the first `emojis` row satisfying `shortcodeDomainQuery`.
`cacheGet` stands for the `emojiCache.GetByShortcodeDomain` closure. -/
def GetEmojiByShortcodeDomain (table cache : List Emoji)
    (cacheGet : List Emoji → Option Emoji) (shortcode domain : String) : EmojiFetch :=
  getEmoji cache cacheGet
    (match table.find? (shortcodeDomainQuery shortcode domain) with
     | some e => .ok e
     | none => .error .noEntries)

/-- The three-row dataset of the spec's paging examples: two local emojis
and one remote emoji sharing the shortcode of the first. -/
def pagingTable : List Emoji :=
  [⟨"id1", "cat", none, false, true, "uri1", "static1", none, 0⟩,
   ⟨"id2", "dog", none, false, true, "uri2", "static2", none, 0⟩,
   ⟨"id3", "cat", some "remote.example", false, true, "uri3", "static3", none, 0⟩]

/-- A sample local emoji for instantiating universally quantified claims. -/
def blobEmoji : Emoji :=
  ⟨"01BLOB", "blobcat", none, false, true, "uri-blob", "static-blob", none, 3⟩

/-- A second sample emoji, disabled, for the update example. -/
def pandaEmoji : Emoji :=
  ⟨"01PANDA", "panda", none, true, true, "uri-panda", "static-panda", none, 4⟩

/-- A sample emoji category. -/
def sampleCategory : EmojiCategory := ⟨"01CUTE", "cute stuff"⟩

/-- A storage that resolves only `blobEmoji`'s id and fails on every other
id, for exercising partial batch failures. -/
def blobOnlyStorage : String → Except DBErr Emoji := fun id =>
  if id = "01BLOB" then .ok blobEmoji else .error .noEntries

/-! ## Support lemmas -/

theorem charListLe_total : ∀ as bs, charListLe as bs = true ∨ charListLe bs as = true
  | [], _ => Or.inl rfl
  | _ :: _, [] => Or.inr rfl
  | a :: as, b :: bs => by
      have ih := charListLe_total as bs
      simp only [charListLe]
      split_ifs <;> first | exact Or.inl rfl | exact Or.inr rfl | omega | exact ih

theorem charListLe_trans : ∀ as bs cs, charListLe as bs = true → charListLe bs cs = true →
    charListLe as cs = true
  | [], _, _, _, _ => rfl
  | _ :: _, [], _, hab, _ => by simp [charListLe] at hab
  | _ :: _, _ :: _, [], _, hbc => by simp [charListLe] at hbc
  | a :: as, b :: bs, c :: cs, hab, hbc => by
      have ih := charListLe_trans as bs cs
      simp only [charListLe] at hab hbc ⊢
      split_ifs at hab hbc ⊢ <;> first | rfl | omega | exact ih hab hbc

instance : IsTotal Emoji emojiAsc := ⟨fun a b => charListLe_total (sortKey a).data (sortKey b).data⟩

instance : IsTrans Emoji emojiAsc :=
  ⟨fun _ _ _ hab hbc => charListLe_trans _ _ _ hab hbc⟩

instance : IsTotal Emoji emojiDesc := ⟨fun a b => (charListLe_total (sortKey a).data (sortKey b).data).symm⟩

instance : IsTrans Emoji emojiDesc :=
  ⟨fun _ _ _ hab hbc => charListLe_trans _ _ _ hbc hab⟩


theorem mem_applyLimit {limit : Int} {l : List Emoji} {e : Emoji}
    (h : e ∈ applyLimit limit l) : e ∈ l := by
  unfold applyLimit at h
  split_ifs at h
  · exact List.take_subset _ _ h
  · exact h

theorem mem_getEmojisRows {table : List Emoji} {domain : String}
    {incD incE : Bool} {sc mx mn : String} {limit : Int} {e : Emoji}
    (h : e ∈ getEmojisRows table domain incD incE sc mx mn limit) :
    e ∈ table ∧ emojiSelectFilter domain incD incE sc mx mn e = true := by
  unfold getEmojisRows at h
  split_ifs at h
  · rw [List.mem_reverse] at h
    have := (List.mem_insertionSort emojiDesc).mp (mem_applyLimit h)
    exact List.mem_filter.mp this
  · have := (List.mem_insertionSort emojiAsc).mp (mem_applyLimit h)
    exact List.mem_filter.mp this

theorem fieldOf_applyColumn_self (s i : Emoji) (col : String) :
    fieldOf (applyColumn s i col) col = fieldOf i col := by
  by_cases h1 : col = "id"
  · subst h1; simp [applyColumn, fieldOf]
  · by_cases h2 : col = "shortcode"
    · subst h2; simp [applyColumn, fieldOf]
    · by_cases h3 : col = "domain"
      · subst h3; simp [applyColumn, fieldOf]
      · by_cases h4 : col = "disabled"
        · subst h4; simp [applyColumn, fieldOf]
        · by_cases h5 : col = "visible_in_picker"
          · subst h5; simp [applyColumn, fieldOf]
          · by_cases h6 : col = "uri"
            · subst h6; simp [applyColumn, fieldOf]
            · by_cases h7 : col = "image_static_url"
              · subst h7; simp [applyColumn, fieldOf]
              · by_cases h8 : col = "category_id"
                · subst h8; simp [applyColumn, fieldOf]
                · by_cases h9 : col = "updated_at"
                  · subst h9; simp [applyColumn, fieldOf]
                  · simp [applyColumn, fieldOf, h1, h2, h3, h4, h5, h6, h7, h8, h9]

theorem fieldOf_applyColumn_other (s i : Emoji) (c col : String) (h : col ≠ c) :
    fieldOf (applyColumn s i c) col = fieldOf s col := by
  by_cases h1 : c = "id"
  · subst h1; simp only [applyColumn]; simp [fieldOf, h]
  · by_cases h2 : c = "shortcode"
    · subst h2; simp only [applyColumn]; simp [fieldOf, h]
    · by_cases h3 : c = "domain"
      · subst h3; simp only [applyColumn]; simp [fieldOf, h]
      · by_cases h4 : c = "disabled"
        · subst h4; simp only [applyColumn]; simp [fieldOf, h]
        · by_cases h5 : c = "visible_in_picker"
          · subst h5; simp only [applyColumn]; simp [fieldOf, h]
          · by_cases h6 : c = "uri"
            · subst h6; simp only [applyColumn]; simp [fieldOf, h]
            · by_cases h7 : c = "image_static_url"
              · subst h7; simp only [applyColumn]; simp [fieldOf, h]
              · by_cases h8 : c = "category_id"
                · subst h8; simp only [applyColumn]; simp [fieldOf, h]
                · by_cases h9 : c = "updated_at"
                  · subst h9; simp only [applyColumn]; simp [fieldOf, h]
                  · simp [applyColumn, h1, h2, h3, h4, h5, h6, h7, h8, h9]

theorem fieldOf_foldl_applyColumn (i : Emoji) :
    ∀ (cols : List String) (s : Emoji) (col : String),
      fieldOf (cols.foldl (fun acc c => applyColumn acc i c) s) col =
        if col ∈ cols then fieldOf i col else fieldOf s col
  | [], s, col => by simp
  | c :: rest, s, col => by
      rw [List.foldl_cons, fieldOf_foldl_applyColumn i rest (applyColumn s i c) col]
      by_cases hrest : col ∈ rest
      · simp [hrest, List.mem_cons]
      · by_cases hc : col = c
        · subst hc
          simp [hrest, fieldOf_applyColumn_self]
        · simp [hrest, hc, fieldOf_applyColumn_other s i c col hc]

theorem cacheGetByID_invalidate (cache : List Emoji) (id : String) :
    cacheGetByID (cacheInvalidate cache id) id = none := by
  rw [cacheGetByID, List.find?_eq_none]
  intro e he
  have := (List.mem_filter.mp he).2
  simpa using this

/-! ## Claims -/

/-- C8: a batch hydration whose input id list is empty (before any
resolution attempt) returns the distinct `db.ErrNoEntries` outcome — never
a successful empty list — for both `emojisFromIDs` and
`emojiCategoriesFromIDs`, whatever the storage and cache are. -/
theorem batch_empty_ids_noEntries
    (storage : String → Except DBErr Emoji) (cache : List Emoji)
    (catStorage : String → Except DBErr EmojiCategory) (catCache : List EmojiCategory) :
    (emojisFromIDs storage cache []).result = .error .noEntries ∧
    (emojiCategoriesFromIDs catStorage catCache []).result = .error .noEntries :=
  ⟨rfl, rfl⟩

/-- C3: the single-entity cache-aside reads `getEmoji` and
`getEmojiCategory`: a cache hit returns the cached entity with no storage
access and the cache unchanged; a miss whose storage load fails returns the
error and caches nothing; a miss whose storage load succeeds puts the
loaded entity in the cache and returns it. -/
theorem getEmoji_cache_aside (cache : List Emoji)
    (cacheGet : List Emoji → Option Emoji) (dbQuery : Except DBErr Emoji)
    (catCache : List EmojiCategory)
    (catGet : List EmojiCategory → Option EmojiCategory)
    (catQuery : Except DBErr EmojiCategory) :
    (∀ e, cacheGet cache = some e →
      getEmoji cache cacheGet dbQuery = ⟨.ok e, cache, false⟩) ∧
    (cacheGet cache = none → ∀ err, dbQuery = .error err →
      getEmoji cache cacheGet dbQuery = ⟨.error err, cache, true⟩) ∧
    (cacheGet cache = none → ∀ e, dbQuery = .ok e →
      getEmoji cache cacheGet dbQuery = ⟨.ok e, cachePut cache e, true⟩) ∧
    (∀ c, catGet catCache = some c →
      getEmojiCategory catCache catGet catQuery = ⟨.ok c, catCache, false⟩) ∧
    (catGet catCache = none → ∀ err, catQuery = .error err →
      getEmojiCategory catCache catGet catQuery = ⟨.error err, catCache, true⟩) ∧
    (catGet catCache = none → ∀ c, catQuery = .ok c →
      getEmojiCategory catCache catGet catQuery = ⟨.ok c, catCachePut catCache c, true⟩) := by
  refine ⟨?_, ?_, ?_, ?_, ?_, ?_⟩
  · intro e he; simp [getEmoji, he]
  · intro hm err herr; simp [getEmoji, hm, herr]
  · intro hm e he; simp [getEmoji, hm, he]
  · intro c hc; simp [getEmojiCategory, hc]
  · intro hm err herr; simp [getEmojiCategory, hm, herr]
  · intro hm c hc; simp [getEmojiCategory, hm, hc]

/-- C3 witness: a concrete cache hit, evaluated on `blobEmoji`. -/
theorem getEmoji_cache_aside_witness :
    getEmoji [blobEmoji] (fun c => cacheGetByID c "01BLOB") (.error .noEntries) =
      ⟨.ok blobEmoji, [blobEmoji], false⟩ :=
  (getEmoji_cache_aside [blobEmoji] (fun c => cacheGetByID c "01BLOB")
    (.error .noEntries) [] (fun c => catCacheGetByID c "01CUTE")
    (.error .noEntries)).1 blobEmoji rfl

/-- C6: the domain filter of `GetEmojis` is tri-state: the empty string
selects exactly the rows with an absent (NULL) domain; the all-domains
sentinel restricts nothing; any other string selects exactly the rows whose
domain equals it; and every row produced by `GetEmojis` passed the filter. -/
theorem getEmojis_domain_tristate (domain : String) (e : Emoji) :
    (domain = "" → (domainWhere domain e = true ↔ e.domain = none)) ∧
    (domain = EmojiAllDomains → domainWhere domain e = true) ∧
    (domain ≠ "" → domain ≠ EmojiAllDomains →
      (domainWhere domain e = true ↔ e.domain = some domain)) ∧
    (∀ (table : List Emoji) (incD incE : Bool) (sc mx mn : String) (limit : Int),
      e ∈ getEmojisRows table domain incD incE sc mx mn limit →
      domainWhere domain e = true) := by
  refine ⟨?_, ?_, ?_, ?_⟩
  · intro h; subst h; simp [domainWhere, Option.isNone_iff_eq_none]
  · intro h; simp [domainWhere, h, EmojiAllDomains]
  · intro h1 h2; simp [domainWhere, h1, h2]
  · intro table incD incE sc mx mn limit hmem
    have hf := (mem_getEmojisRows hmem).2
    simp only [emojiSelectFilter, Bool.and_eq_true] at hf
    exact hf.1.1.1.1

/-- C6 witness: with the empty domain filter, a remote row is rejected. -/
theorem getEmojis_domain_tristate_witness :
    domainWhere "" ⟨"id3", "cat", some "remote.example", false, true,
      "uri3", "static3", none, 0⟩ = true ↔
    (⟨"id3", "cat", some "remote.example", false, true, "uri3", "static3",
      none, 0⟩ : Emoji).domain = none :=
  (getEmojis_domain_tristate "" _).1 rfl

/-- C7: the disabled/enabled filter of `GetEmojis` is tri-state:
disabled-only when only `includeDisabled` is set, enabled-only when only
`includeEnabled` is set, and no restriction when both flags agree; and
every row produced by `GetEmojis` passed the filter. -/
theorem getEmojis_disabled_tristate (incD incE : Bool) (e : Emoji) :
    (incD = true → incE = false →
      (disabledWhere incD incE e = true ↔ e.disabled = true)) ∧
    (incE = true → incD = false →
      (disabledWhere incD incE e = true ↔ e.disabled = false)) ∧
    (incD = incE → disabledWhere incD incE e = true) ∧
    (∀ (table : List Emoji) (domain sc mx mn : String) (limit : Int),
      e ∈ getEmojisRows table domain incD incE sc mx mn limit →
      disabledWhere incD incE e = true) := by
  refine ⟨?_, ?_, ?_, ?_⟩
  · intro h1 h2; subst h1; subst h2; simp [disabledWhere]
  · intro h1 h2; subst h1; subst h2; simp [disabledWhere]
  · intro h; cases incD <;> cases incE <;> simp_all [disabledWhere]
  · intro table domain sc mx mn limit hmem
    have hf := (mem_getEmojisRows hmem).2
    simp only [emojiSelectFilter, Bool.and_eq_true] at hf
    exact hf.1.1.1.2

/-- C7 witness: disabled-only keeps the disabled `pandaEmoji`. -/
theorem getEmojis_disabled_tristate_witness :
    disabledWhere true false pandaEmoji = true ↔ pandaEmoji.disabled = true :=
  (getEmojis_disabled_tristate true false pandaEmoji).1 rfl rfl

/-- C10: on a cache miss, `GetEmojiByShortcodeDomain`'s storage query is
asymmetric about case: an empty domain matches the shortcode column against
the lowercased input and requires a NULL domain, while a non-empty domain
matches both columns by case-sensitive equality with no lowercasing; and
any entity returned from storage satisfies that query. -/
theorem getEmojiByShortcodeDomain_case_asymmetry (shortcode domain : String)
    (e : Emoji) (table cache : List Emoji) (cacheGet : List Emoji → Option Emoji) :
    (domain = "" →
      (shortcodeDomainQuery shortcode domain e = true ↔
        e.shortcode = strToLower shortcode ∧ e.domain = none)) ∧
    (domain ≠ "" →
      (shortcodeDomainQuery shortcode domain e = true ↔
        e.shortcode = shortcode ∧ e.domain = some domain)) ∧
    (cacheGet cache = none → ∀ res,
      (GetEmojiByShortcodeDomain table cache cacheGet shortcode domain).result = .ok res →
      shortcodeDomainQuery shortcode domain res = true) := by
  refine ⟨?_, ?_, ?_⟩
  · intro h; subst h; simp [shortcodeDomainQuery, Option.isNone_iff_eq_none]
  · intro h; simp [shortcodeDomainQuery, h]
  · intro hmiss res hres
    simp only [GetEmojiByShortcodeDomain, getEmoji, hmiss] at hres
    rcases hfind : table.find? (shortcodeDomainQuery shortcode domain) with _ | e'
    · rw [hfind] at hres; simp at hres
    · rw [hfind] at hres
      simp only [Except.ok.injEq] at hres
      exact hres ▸ List.find?_some hfind

/-- C10 witness: the local (empty-domain) case evaluated on `blobEmoji`
with a capitalised input shortcode. -/
theorem getEmojiByShortcodeDomain_case_asymmetry_witness :
    shortcodeDomainQuery "BlobCat" "" blobEmoji = true ↔
      blobEmoji.shortcode = strToLower "BlobCat" ∧ blobEmoji.domain = none :=
  (getEmojiByShortcodeDomain_case_asymmetry "BlobCat" "" blobEmoji [] []
    (fun _ => none)).1 rfl

/-- C1 (against the claim): hydrating the id batch `["01BLOB", "01MISSING"]`
where the second id fails to resolve does not skip the failed id: the call
reports overall success and the output has a nil placeholder entry in the
failed id's position, contradicting the claimed skip behaviour. -/
theorem emojisFromIDs_keeps_nil_placeholder :
    (emojisFromIDs blobOnlyStorage [] ["01BLOB", "01MISSING"]).result =
      .ok [some blobEmoji, none] := by
  rfl

/-- C2: `DeleteEmojiByID` runs exactly the three delete statements in order
(status junction, account junction, emoji row) inside one transaction; on
success all three tables are purged of the id and the cache entry is
invalidated afterwards; if any statement fails the transaction is rolled
back (no row removed anywhere), the error is returned, and the cache is
untouched. -/
theorem deleteEmojiByID_transactional (st : EmojiDBState) (cache : List Emoji)
    (id : String) :
    (DeleteEmojiByID st cache id none none none =
      (.ok (), ⟨st.statusToEmojis.filter (fun r => r.emojiID != id),
                st.accountToEmojis.filter (fun r => r.emojiID != id),
                st.emojis.filter (fun r => r.id != id)⟩,
        cacheInvalidate cache id, [.statusJunction, .accountJunction, .emojiRow])) ∧
    (∀ (err : DBErr) (e2 e3 : Option DBErr),
      DeleteEmojiByID st cache id (some err) e2 e3 = (.error err, st, cache, [])) ∧
    (∀ (err : DBErr) (e3 : Option DBErr),
      DeleteEmojiByID st cache id none (some err) e3 =
        (.error err, st, cache, [.statusJunction])) ∧
    (∀ err : DBErr,
      DeleteEmojiByID st cache id none none (some err) =
        (.error err, st, cache, [.statusJunction, .accountJunction])) :=
  ⟨rfl, fun _ _ _ => rfl, fun _ _ => rfl, fun _ => rfl⟩

/-- C9: a successful `UpdateEmoji` returns the emoji with its `UpdatedAt`
refreshed to the current time, leaves the cache with no entry for the
emoji's id (so the next read must re-query storage), and writes only the
listed columns of the matching stored row: rows with other ids are
untouched, unlisted columns of the matching row keep their stored values,
and listed columns take the incoming emoji's values. -/
theorem updateEmoji_refreshes_and_frames (table cache : List Emoji)
    (emoji : Emoji) (columns : List String) (now : Nat) :
    (UpdateEmoji table cache emoji columns now none).1 =
      .ok { emoji with updatedAt := now } ∧
    (UpdateEmoji table cache emoji columns now none).2.2 =
      cacheInvalidate cache emoji.id ∧
    cacheGetByID (UpdateEmoji table cache emoji columns now none).2.2 emoji.id = none ∧
    List.Forall₂ (fun old new : Emoji =>
        (old.id ≠ emoji.id → new = old) ∧
        (old.id = emoji.id → ∀ col : String,
          (col ∉ columns → fieldOf new col = fieldOf old col) ∧
          (col ∈ columns → fieldOf new col = fieldOf { emoji with updatedAt := now } col)))
      table (UpdateEmoji table cache emoji columns now none).2.1 := by
  refine ⟨rfl, rfl, cacheGetByID_invalidate cache emoji.id, ?_⟩
  have hmap : (UpdateEmoji table cache emoji columns now none).2.1 =
      table.map (fun row => if row.id = emoji.id then
        columns.foldl (fun acc col => applyColumn acc { emoji with updatedAt := now } col) row
      else row) := rfl
  rw [hmap, List.forall₂_map_right_iff]
  rw [List.forall₂_same]
  intro row _hrow
  by_cases hid : row.id = emoji.id
  · rw [if_pos hid]
    refine ⟨fun hne => absurd hid hne, fun _ col => ⟨fun hnot => ?_, fun hin => ?_⟩⟩
    · rw [fieldOf_foldl_applyColumn, if_neg hnot]
    · rw [fieldOf_foldl_applyColumn, if_pos hin]
  · rw [if_neg hid]
    exact ⟨fun _ => rfl, fun heq => absurd heq hid⟩

/-- C9 witness: updating `pandaEmoji`'s disabled column refreshes
`UpdatedAt` and empties the cache slot for its id. -/
theorem updateEmoji_refreshes_and_frames_witness :
    (UpdateEmoji [pandaEmoji] [pandaEmoji] pandaEmoji ["disabled"] 9 none).1 =
      .ok { pandaEmoji with updatedAt := 9 } ∧
    cacheGetByID (UpdateEmoji [pandaEmoji] [pandaEmoji] pandaEmoji
      ["disabled"] 9 none).2.2 pandaEmoji.id = none :=
  ⟨(updateEmoji_refreshes_and_frames [pandaEmoji] [pandaEmoji] pandaEmoji
      ["disabled"] 9).1,
    (updateEmoji_refreshes_and_frames [pandaEmoji] [pandaEmoji] pandaEmoji
      ["disabled"] 9).2.2.1⟩

/-- C4: with a non-empty backward cursor `minShortcodeDomain`, `GetEmojis`
keeps exactly rows whose sort key is strictly below the lowercased cursor,
its output is ascending in the sort key (the internally descending fetch is
reversed in memory), the limit is applied before the reversal — so the kept
rows are the ones with the largest keys, every discarded passing row lying
at or below every kept one — and on the spec's dataset the cursor `dog@`
yields `[id1, id3]`. -/
theorem getEmojis_backward_cursor (table : List Emoji) (domain : String)
    (incD incE : Bool) (sc mx mn : String) (limit : Int) (hmn : mn ≠ "") :
    (∀ e ∈ getEmojisRows table domain incD incE sc mx mn limit,
      e ∈ table ∧ emojiSelectFilter domain incD incE sc mx mn e = true ∧
      strLt (sortKey e) (strToLower mn) = true) ∧
    List.Pairwise emojiAsc (getEmojisRows table domain incD incE sc mx mn limit) ∧
    (0 < limit →
      (getEmojisRows table domain incD incE sc mx mn limit).length ≤ limit.toNat ∧
      ∀ a ∈ getEmojisRows table domain incD incE sc mx mn limit,
        ∀ b ∈ table, emojiSelectFilter domain incD incE sc mx mn b = true →
          b ∉ getEmojisRows table domain incD incE sc mx mn limit →
          strLe (sortKey b) (sortKey a) = true) ∧
    getEmojisIDs pagingTable EmojiAllDomains true true "" "" "dog@" 0 = ["id1", "id3"] := by
  have hout : getEmojisRows table domain incD incE sc mx mn limit =
      (applyLimit limit (List.insertionSort emojiDesc
        (table.filter (emojiSelectFilter domain incD incE sc mx mn)))).reverse := by
    unfold getEmojisRows
    rw [if_pos hmn]
  have hsorted : List.Pairwise emojiDesc
      (List.insertionSort emojiDesc (table.filter (emojiSelectFilter domain incD incE sc mx mn))) :=
    List.sorted_insertionSort emojiDesc _
  refine ⟨?_, ?_, ?_, by decide⟩
  · intro e he
    obtain ⟨htbl, hf⟩ := mem_getEmojisRows he
    refine ⟨htbl, hf, ?_⟩
    have := hf
    simp only [emojiSelectFilter, Bool.and_eq_true] at this
    have hmin := this.2
    rw [minWhere, if_neg hmn] at hmin
    exact hmin
  · rw [hout]
    refine List.pairwise_reverse.mpr ?_
    have hsub : (applyLimit limit (List.insertionSort emojiDesc
        (table.filter (emojiSelectFilter domain incD incE sc mx mn)))).Sublist
        (List.insertionSort emojiDesc
          (table.filter (emojiSelectFilter domain incD incE sc mx mn))) := by
      unfold applyLimit
      split_ifs
      · exact List.take_sublist _ _
      · exact List.Sublist.refl _
    exact (hsorted.sublist hsub).imp (fun h => h)
  · intro hlim
    have happ : applyLimit limit (List.insertionSort emojiDesc
        (table.filter (emojiSelectFilter domain incD incE sc mx mn))) =
        (List.insertionSort emojiDesc
          (table.filter (emojiSelectFilter domain incD incE sc mx mn))).take limit.toNat := by
      unfold applyLimit
      rw [if_pos hlim]
    constructor
    · rw [hout, happ, List.length_reverse]
      simp [List.length_take]
    · intro a ha b hbtbl hbf hbnot
      rw [hout, happ, List.mem_reverse] at ha hbnot
      have hbS : b ∈ List.insertionSort emojiDesc
          (table.filter (emojiSelectFilter domain incD incE sc mx mn)) :=
        (List.mem_insertionSort emojiDesc).mpr (List.mem_filter.mpr ⟨hbtbl, hbf⟩)
      have hsplit := List.take_append_drop limit.toNat
        (List.insertionSort emojiDesc (table.filter (emojiSelectFilter domain incD incE sc mx mn)))
      have hbdrop : b ∈ (List.insertionSort emojiDesc
          (table.filter (emojiSelectFilter domain incD incE sc mx mn))).drop limit.toNat := by
        rw [← hsplit] at hbS
        rcases List.mem_append.mp hbS with h | h
        · exact absurd h hbnot
        · exact h
      have hpair := hsorted
      rw [← hsplit] at hpair
      exact (List.pairwise_append.mp hpair).2.2 a ha b hbdrop

/-- C4 witness: the spec dataset with cursor `dog@` and no limit. -/
theorem getEmojis_backward_cursor_witness :
    getEmojisIDs pagingTable EmojiAllDomains true true "" "" "dog@" 0 = ["id1", "id3"] :=
  (getEmojis_backward_cursor pagingTable EmojiAllDomains true true "" "" "dog@" 0
    (by decide)).2.2.2

/-- C5: with a non-empty forward cursor `maxShortcodeDomain` and no
backward cursor, `GetEmojis` keeps exactly rows whose sort key is strictly
above the lowercased cursor (case-sensitive comparison), the output stays
ascending in the derived sort key, and on the spec's dataset the cursor
`cat@` yields `[id3, id2]`. -/
theorem getEmojis_forward_cursor (table : List Emoji) (domain : String)
    (incD incE : Bool) (sc mx mn : String) (limit : Int)
    (hmx : mx ≠ "") (hmn : mn = "") :
    (∀ e ∈ getEmojisRows table domain incD incE sc mx mn limit,
      e ∈ table ∧ emojiSelectFilter domain incD incE sc mx mn e = true ∧
      strLt (strToLower mx) (sortKey e) = true) ∧
    List.Pairwise emojiAsc (getEmojisRows table domain incD incE sc mx mn limit) ∧
    getEmojisIDs pagingTable EmojiAllDomains true true "" "cat@" "" 0 = ["id3", "id2"] := by
  have hout : getEmojisRows table domain incD incE sc mx mn limit =
      applyLimit limit (List.insertionSort emojiAsc
        (table.filter (emojiSelectFilter domain incD incE sc mx mn))) := by
    unfold getEmojisRows
    rw [if_neg (by simp [hmn])]
  refine ⟨?_, ?_, by decide⟩
  · intro e he
    obtain ⟨htbl, hf⟩ := mem_getEmojisRows he
    refine ⟨htbl, hf, ?_⟩
    have := hf
    simp only [emojiSelectFilter, Bool.and_eq_true] at this
    have hmax := this.1.2
    rw [maxWhere, if_neg hmx] at hmax
    exact hmax
  · rw [hout]
    have hsub : (applyLimit limit (List.insertionSort emojiAsc
        (table.filter (emojiSelectFilter domain incD incE sc mx mn)))).Sublist
        (List.insertionSort emojiAsc
          (table.filter (emojiSelectFilter domain incD incE sc mx mn))) := by
      unfold applyLimit
      split_ifs
      · exact List.take_sublist _ _
      · exact List.Sublist.refl _
    exact (List.sorted_insertionSort emojiAsc _).sublist hsub

/-- C5 witness: the spec dataset with cursor `cat@` and no limit. -/
theorem getEmojis_forward_cursor_witness :
    getEmojisIDs pagingTable EmojiAllDomains true true "" "cat@" "" 0 = ["id3", "id2"] :=
  (getEmojis_forward_cursor pagingTable EmojiAllDomains true true "" "cat@" "" 0
    (by decide) rfl).2.2

end Bundb
